import Mathlib

/-!
Shallow embedding of the aws-sigv4-auth-cassandra-gocql-driver-plugin
repository (files sigv4/internal/crypt.go and sigv4/sigv4.go).

Go strings are byte strings, so every Go string is modelled as a `List Nat`
of byte values (`GoStr`); `strBytes` turns an ASCII Lean string literal into
that representation.  Go's `error` values are modelled by `Except` carrying
the error message bytes.  `time.Time` is modelled by its broken-down fields
(`GoTime`); the zero time used by `time.Time.IsZero` is modelled as `none`
in an `Option GoTime`.  The credentials callback, which Go invokes exactly
once per signing call, is modelled by the outcome of that one invocation,
`Option (Except GoStr SigV4Credentials)`.
-/

set_option maxRecDepth 40000

abbrev GoStr := List Nat

def strBytes (s : String) : GoStr := s.data.map Char.toNat

/-! SHA-256 (Go crypto/sha256), on byte lists, words as `Nat` reduced mod 2^32. -/

def rotr32 (n x : Nat) : Nat := (x >>> n) ||| ((x % (2 ^ n)) <<< (32 - n))

def add32 (a b : Nat) : Nat := (a + b) % 4294967296

/-- SHA-256 round constants (FIPS 180-4), written in decimal. -/
def shaK : List Nat :=
  [1116352408, 1899447441, 3049323471, 3921009573, 961987163, 1508970993,
   2453635748, 2870763221, 3624381080, 310598401, 607225278, 1426881987,
   1925078388, 2162078206, 2614888103, 3248222580, 3835390401, 4022224774,
   264347078, 604807628, 770255983, 1249150122, 1555081692, 1996064986,
   2554220882, 2821834349, 2952996808, 3210313671, 3336571891, 3584528711,
   113926993, 338241895, 666307205, 773529912, 1294757372, 1396182291,
   1695183700, 1986661051, 2177026350, 2456956037, 2730485921, 2820302411,
   3259730800, 3345764771, 3516065817, 3600352804, 4094571909, 275423344,
   430227734, 506948616, 659060556, 883997877, 958139571, 1322822218,
   1537002063, 1747873779, 1955562222, 2024104815, 2227730452, 2361852424,
   2428436474, 2756734187, 3204031479, 3329325298]

/-- SHA-256 initial hash words (FIPS 180-4), written in decimal. -/
def shaH0 : List Nat :=
  [1779033703, 3144134277, 1013904242, 2773480762, 1359893119, 2600822924,
   528734635, 1541459225]

def toBytesBE : Nat → Nat → List Nat
  | 0, _ => []
  | k + 1, v => toBytesBE k (v / 256) ++ [v % 256]

def shaPad (msg : List Nat) : List Nat :=
  let n := msg.length
  let r := (n + 9) % 64
  let zeros := if r = 0 then 0 else 64 - r
  msg ++ [128] ++ List.replicate zeros 0 ++ toBytesBE 8 (8 * n)

def chunks64 : Nat → List Nat → List (List Nat)
  | 0, _ => []
  | fuel + 1, l => if l = [] then [] else l.take 64 :: chunks64 fuel (l.drop 64)

def bytesToWords : List Nat → List Nat
  | b0 :: b1 :: b2 :: b3 :: rest => (((b0 * 256 + b1) * 256 + b2) * 256 + b3) :: bytesToWords rest
  | _ => []

def ssig0 (x : Nat) : Nat := rotr32 7 x ^^^ rotr32 18 x ^^^ (x >>> 3)

def ssig1 (x : Nat) : Nat := rotr32 17 x ^^^ rotr32 19 x ^^^ (x >>> 10)

def bsig0 (x : Nat) : Nat := rotr32 2 x ^^^ rotr32 13 x ^^^ rotr32 22 x

def bsig1 (x : Nat) : Nat := rotr32 6 x ^^^ rotr32 11 x ^^^ rotr32 25 x

/-- Message-schedule extension; the schedule is kept most-recent-first while extending. -/
def schedExtend : Nat → List Nat → List Nat
  | 0, w => w
  | n + 1, w =>
    let x := add32 (add32 (ssig1 (w.getD 1 0)) (w.getD 6 0)) (add32 (ssig0 (w.getD 14 0)) (w.getD 15 0))
    schedExtend n (x :: w)

def schedule (block16 : List Nat) : List Nat := (schedExtend 48 block16.reverse).reverse

def roundStep (st : List Nat) (kw : Nat × Nat) : List Nat :=
  match st with
  | [a, b, c, d, e, f, g, h] =>
    let t1 := add32 (add32 (add32 h (bsig1 e)) (add32 ((e &&& f) ^^^ ((0xffffffff ^^^ e) &&& g)) kw.1)) kw.2
    let t2 := add32 (bsig0 a) ((a &&& b) ^^^ (a &&& c) ^^^ (b &&& c))
    [add32 t1 t2, a, b, c, add32 d t1, e, f, g]
  | _ => st

def compress (h : List Nat) (block : List Nat) : List Nat :=
  let w := schedule (bytesToWords block)
  let st := (shaK.zip w).foldl roundStep h
  (h.zip st).map (fun p => add32 p.1 p.2)

def sha256 (msg : List Nat) : List Nat :=
  let padded := shaPad msg
  let hs := (chunks64 (padded.length + 1) padded).foldl compress shaH0
  hs.foldr (fun wrd acc => toBytesBE 4 wrd ++ acc) []

/-- Go crypto/hmac instantiated with sha256 (block size 64 bytes). -/
def hmacSHA256 (key msg : List Nat) : List Nat :=
  let k0 := if 64 < key.length then sha256 key else key
  let kp := k0 ++ List.replicate (64 - k0.length) 0
  sha256 ((kp.map (fun b => b ^^^ 0x5c)) ++ sha256 ((kp.map (fun b => b ^^^ 0x36)) ++ msg))

/-- Lowercase hex encoding (Go encoding/hex EncodeToString). -/
def hexDigit (n : Nat) : Nat := if n < 10 then 48 + n else 87 + n

def hexEncode (bs : List Nat) : GoStr := bs.foldr (fun b acc => hexDigit (b / 16) :: hexDigit (b % 16) :: acc) []

/-! Decimal formatting used by Go fmt verbs %d, %02d, %03d and time layouts. -/

def natToDecAux : Nat → Nat → List Nat
  | 0, _ => []
  | fuel + 1, n => if n < 10 then [48 + n] else natToDecAux fuel (n / 10) ++ [48 + n % 10]

def natToDec (n : Nat) : GoStr := natToDecAux (n + 1) n

def pad2 (n : Nat) : GoStr := if n < 10 then 48 :: natToDec n else natToDec n

def pad3 (n : Nat) : GoStr :=
  if n < 10 then 48 :: 48 :: natToDec n else if n < 100 then 48 :: natToDec n else natToDec n

def pad4 (n : Nat) : GoStr :=
  if n < 10 then 48 :: 48 :: 48 :: natToDec n
  else if n < 100 then 48 :: 48 :: natToDec n
  else if n < 1000 then 48 :: natToDec n
  else natToDec n

/-- Broken-down model of a Go time.Time instant (UTC), to millisecond precision,
which is all the repository's formatting observes. -/
structure GoTime where
  year : Nat
  month : Nat
  day : Nat
  hour : Nat
  minute : Nat
  second : Nat
  millis : Nat
deriving DecidableEq

/-- Go t.Format with layout 2006-01-02T15:04:05.000Z (a lone Z is a literal in Go layouts). -/
def isoFormat (t : GoTime) : GoStr :=
  pad4 t.year ++ [45] ++ pad2 t.month ++ [45] ++ pad2 t.day ++ [84]
    ++ pad2 t.hour ++ [58] ++ pad2 t.minute ++ [58] ++ pad2 t.second
    ++ [46] ++ pad3 t.millis ++ [90]

/-- crypt.go toCredDateStamp: fmt.Sprintf with %d%02d%02d on year, month, day. -/
def toCredDateStamp (t : GoTime) : GoStr := natToDec t.year ++ pad2 t.month ++ pad2 t.day

/-- Bytes that Go net/url never escapes in a query component: alphanumerics and - _ . ~ -/
def isUnreservedQ (b : Nat) : Bool :=
  (48 ≤ b && b ≤ 57) || (65 ≤ b && b ≤ 90) || (97 ≤ b && b ≤ 122)
    || b = 45 || b = 95 || b = 46 || b = 126

def upHexDigit (n : Nat) : Nat := if n < 10 then 48 + n else 55 + n

/-- Go net/url QueryEscape: unreserved bytes pass through, space becomes +,
every other byte becomes %XX with uppercase hex. -/
def queryEscape (s : GoStr) : GoStr :=
  s.foldr (fun b acc =>
    if isUnreservedQ b then b :: acc
    else if b = 32 then 43 :: acc
    else 37 :: upHexDigit (b / 16) :: upHexDigit (b % 16) :: acc) []

/-- Byte-lexicographic string order, the order Go string comparison uses. -/
def goLe : GoStr → GoStr → Bool
  | [], _ => true
  | _ :: _, [] => false
  | a :: as, b :: bs => if a < b then true else if b < a then false else goLe as bs

def goLeP (a b : GoStr) : Prop := goLe a b = true

instance : DecidableRel goLeP := fun a b => inferInstanceAs (Decidable (goLe a b = true))

/-- Model of Go sort.Strings: the ascending byte-lexicographic sort of the list.
sort.Strings produces the sorted permutation of its input, which is unique as a
multiset, so any correct sorting algorithm models it exactly. -/
def sortStrings (l : List GoStr) : List GoStr := List.insertionSort goLeP l

/-- Go strings.Join. -/
def joinSep (sep : GoStr) : List GoStr → GoStr
  | [] => []
  | [x] => x
  | x :: xs => x ++ sep ++ joinSep sep xs

/-! Go strings.Split for a non-empty separator: split around each
non-overlapping, leftmost-first occurrence of sep.  Fuel-based recursion;
each step consumes at least one byte of text, so text.length + 1 fuel is
always enough. -/

def splitAux (sep : List Nat) : Nat → List Nat → List Nat → List (List Nat)
  | 0, acc, rest => [acc ++ rest]
  | fuel + 1, acc, text =>
    if sep.isPrefixOf text then
      acc :: splitAux sep fuel [] (text.drop sep.length)
    else
      match text with
      | [] => [acc]
      | c :: rest => splitAux sep fuel (acc ++ [c]) rest

def splitGo (text sep : List Nat) : List (List Nat) := splitAux sep (text.length + 1) [] text

/-- The literal byte string nonce= that a challenge payload must start with. -/
def nonceTag : GoStr := strBytes "nonce="

/-- crypt.go ExtractNonce: reject unless the payload starts with nonce=, else
return strings.Split(text, "nonce=")[1].  The guard guarantees the split has at
least two elements, so the getD default is never used. -/
def ExtractNonce (req : List Nat) : Except GoStr GoStr :=
  if nonceTag.isPrefixOf req then .ok ((splitGo req nonceTag).getD 1 [])
  else .error (strBytes "request does not contain nonce property")

deriving instance DecidableEq for Except

/-- Everything in s strictly before the first occurrence of sep (all of s when
sep does not occur); spec-side helper used to characterise ExtractNonce. -/
def takeUntilSub (sep : GoStr) : GoStr → GoStr
  | [] => []
  | c :: rest => if sep.isPrefixOf (c :: rest) then [] else c :: takeUntilSub sep rest

/-- Whether sep occurs as a contiguous substring of s. -/
def containsSub (sep : GoStr) : GoStr → Bool
  | [] => sep.isPrefixOf []
  | c :: rest => sep.isPrefixOf (c :: rest) || containsSub sep rest

/-! The signing engine of crypt.go. -/

/-- crypt.go computeScope. -/
def computeScope (t : GoTime) (region : GoStr) : GoStr :=
  joinSep [47] [toCredDateStamp t, region, strBytes "cassandra", strBytes "aws4_request"]

/-- The four query-parameter strings formed inside formCanonicalRequest. -/
def canonHeaders (accessKeyId scope : GoStr) (t : GoTime) : List GoStr :=
  [strBytes "X-Amz-Algorithm=AWS4-HMAC-SHA256",
   strBytes "X-Amz-Credential=" ++ accessKeyId ++ strBytes "%2F" ++ queryEscape scope,
   strBytes "X-Amz-Date=" ++ queryEscape (isoFormat t),
   strBytes "X-Amz-Expires=900"]

/-- crypt.go formCanonicalRequest. -/
def formCanonicalRequest (accessKeyId scope : GoStr) (t : GoTime) (nonce : GoStr) : GoStr :=
  let nonceHash := sha256 nonce
  let queryString := joinSep [38] (sortStrings (canonHeaders accessKeyId scope t))
  strBytes "PUT\n/authenticate\n" ++ queryString ++ strBytes "\nhost:cassandra\n\nhost\n"
    ++ hexEncode nonceHash

/-- crypt.go applyHmac: hmac keyed by hashSecret applied to data. -/
def applyHmac (data : GoStr) (hashSecret : List Nat) : List Nat := hmacSHA256 hashSecret data

/-- crypt.go deriveSigningKey. -/
def deriveSigningKey (secret : GoStr) (t : GoTime) (region : GoStr) : List Nat :=
  let s := strBytes "AWS4" ++ secret
  let h1 := applyHmac (toCredDateStamp t) s
  let h2 := applyHmac region h1
  let h3 := applyHmac (strBytes "cassandra") h2
  applyHmac (strBytes "aws4_request") h3

/-- crypt.go createSignature. -/
def createSignature (canonicalRequest : GoStr) (t : GoTime) (signingScope : GoStr)
    (signingKey : List Nat) : List Nat :=
  let digest := sha256 canonicalRequest
  let s := strBytes "AWS4-HMAC-SHA256\n" ++ isoFormat t ++ [10] ++ signingScope ++ [10]
    ++ hexEncode digest
  applyHmac s signingKey

/-- crypt.go BuildSignedResponse. -/
def BuildSignedResponse (region nonce accessKeyId secret sessionToken : GoStr) (t : GoTime) : GoStr :=
  let scope := computeScope t region
  let canonicalRequest := formCanonicalRequest accessKeyId scope t nonce
  let signingKey := deriveSigningKey secret t region
  let signature := createSignature canonicalRequest t scope signingKey
  let result := strBytes "signature=" ++ hexEncode signature ++ strBytes ",access_key="
    ++ accessKeyId ++ strBytes ",amzdate=" ++ isoFormat t
  if sessionToken ≠ [] then result ++ strBytes ",session_token=" ++ sessionToken else result

/-! The challenge protocol of sigv4.go. -/

structure SigV4Credentials where
  AccessKeyId : GoStr
  SecretAccessKey : GoStr
  SessionToken : GoStr

/-- sigv4.go AwsAuthenticator.  CredentialsCallback is the outcome of the one
invocation the Challenge step would make (none models a nil callback);
currentTime none models the Go zero time. -/
structure AwsAuthenticator where
  Region : GoStr
  AccessKeyId : GoStr
  SecretAccessKey : GoStr
  SessionToken : GoStr
  CredentialsCallback : Option (Except GoStr SigV4Credentials)
  currentTime : Option GoTime

/-- sigv4.go signingAuthenticator: the per-connection snapshot. -/
structure signingAuthenticator where
  region : GoStr
  accessKeyId : GoStr
  secretAccessKey : GoStr
  sessionToken : GoStr
  credentialsCallback : Option (Except GoStr SigV4Credentials)
  currentTime : Option GoTime

/-- sigv4.go AwsAuthenticator.Challenge (step 1): always returns the fixed
protocol-selector bytes and a fresh field-by-field snapshot, with a nil error. -/
def AwsAuthenticator.Challenge (p : AwsAuthenticator) (req : List Nat) :
    Except GoStr (List Nat × signingAuthenticator) :=
  .ok (strBytes "SigV4\x00\x00",
    { region := p.Region, accessKeyId := p.AccessKeyId, secretAccessKey := p.SecretAccessKey,
      sessionToken := p.SessionToken, credentialsCallback := p.CredentialsCallback,
      currentTime := p.currentTime })

/-- sigv4.go signingAuthenticator.Challenge (step 2).  now is the instant
time.Now().UTC() would return, used only when no test clock is set.  The
defensive byte-buffer copy in the Go code is the identity on values. -/
def signingAuthenticator.Challenge (p : signingAuthenticator) (now : GoTime) (req : List Nat) :
    Except GoStr (List Nat) :=
  match ExtractNonce req with
  | .error e => .error e
  | .ok nonce =>
    let t := p.currentTime.getD now
    match p.credentialsCallback with
    | none =>
        .ok (BuildSignedResponse p.region nonce p.accessKeyId p.secretAccessKey p.sessionToken t)
    | some (.error e) => .error (strBytes "failed to retrieve AWS credentials: " ++ e)
    | some (.ok credentials) =>
        .ok (BuildSignedResponse p.region nonce credentials.AccessKeyId
          credentials.SecretAccessKey credentials.SessionToken t)

/-- Whether a step-2 outcome is a success (a non-nil response with nil error). -/
def isOkResult : Except GoStr (List Nat) → Bool
  | .ok _ => true
  | .error _ => false

/-- The timestamp 2020-06-09T22:41:51Z used by the repository test fixture. -/
def fixtureTime : GoTime := ⟨2020, 6, 9, 22, 41, 51, 0⟩

/-! Helper lemmas. -/

theorem goLe_total : ∀ a b : GoStr, goLe a b = true ∨ goLe b a = true
  | [], _ => Or.inl rfl
  | _ :: _, [] => Or.inr rfl
  | a :: as, b :: bs => by
    by_cases hab : a < b
    · left
      simp [goLe, hab]
    · by_cases hba : b < a
      · right
        simp [goLe, hba]
      · have he : a = b := by omega
        subst he
        rcases goLe_total as bs with h | h
        · left
          simp [goLe, hab, hba, h]
        · right
          simp [goLe, hab, hba, h]

theorem goLe_trans : ∀ a b c : GoStr, goLe a b = true → goLe b c = true → goLe a c = true
  | [], _, _, _, _ => rfl
  | _ :: _, [], _, h1, _ => by simp [goLe] at h1
  | _ :: _, _ :: _, [], _, h2 => by simp [goLe] at h2
  | a :: as, b :: bs, c :: cs, h1, h2 => by
    simp only [goLe] at h1 h2 ⊢
    by_cases hab : a < b
    · by_cases hbc : b < c
      · simp [Nat.lt_trans hab hbc]
      · by_cases hcb : c < b
        · simp [hbc, hcb] at h2
        · have : b = c := by omega
          subst this
          simp [hab]
    · by_cases hba : b < a
      · simp [hab, hba] at h1
      · have : a = b := by omega
        subst this
        simp [hab] at h1
        by_cases hbc : a < c
        · simp [hbc]
        · by_cases hcb : c < a
          · simp [hbc, hcb] at h2
          · have : a = c := by omega
            subst this
            simp [hbc, h1] at h2 ⊢
            exact goLe_trans as bs cs h1 h2

instance : IsTotal GoStr goLeP := ⟨goLe_total⟩

instance : IsTrans GoStr goLeP := ⟨goLe_trans⟩

theorem nonceTag_ne_nil : nonceTag ≠ [] := by decide

theorem splitAux_succ (sep : List Nat) (fuel : Nat) (acc text : List Nat) :
    splitAux sep (fuel + 1) acc text =
      if sep.isPrefixOf text then
        acc :: splitAux sep fuel [] (text.drop sep.length)
      else
        match text with
        | [] => [acc]
        | c :: rest => splitAux sep fuel (acc ++ [c]) rest := rfl

theorem splitAux_getD0 (sep : List Nat) (hsep : sep ≠ []) :
    ∀ (s : List Nat) (fuel : Nat) (acc : List Nat), s.length ≤ fuel →
      (splitAux sep fuel acc s).getD 0 [] = acc ++ takeUntilSub sep s
  | [], fuel, acc, _ => by
    have hnp : sep.isPrefixOf ([] : List Nat) = false := by
      rcases sep with _ | ⟨x, xs⟩
      · exact absurd rfl hsep
      · rfl
    cases fuel with
    | zero => simp [splitAux, takeUntilSub]
    | succ f => simp [splitAux, hnp, takeUntilSub]
  | c :: rest, fuel, acc, hlen => by
    cases fuel with
    | zero => exact absurd hlen (by simp)
    | succ f =>
      have hlen' : rest.length ≤ f := by
        simp at hlen
        omega
      by_cases hp : sep.isPrefixOf (c :: rest) = true
      · simp [splitAux, hp, takeUntilSub]
      · have hp' : sep.isPrefixOf (c :: rest) = false := Bool.eq_false_iff.mpr hp
        have hrec := splitAux_getD0 sep hsep rest f (acc ++ [c]) hlen'
        simp only [splitAux, hp', Bool.false_eq_true, if_false]
        rw [hrec]
        simp [takeUntilSub, hp']

theorem takeUntilSub_of_not_contains (sep : GoStr) :
    ∀ s : GoStr, containsSub sep s = false → takeUntilSub sep s = s
  | [], _ => rfl
  | c :: rest, h => by
    simp only [containsSub, Bool.or_eq_false_iff] at h
    simp [takeUntilSub, h.1, takeUntilSub_of_not_contains sep rest h.2]

theorem extractNonce_tag_append (s : GoStr) :
    ExtractNonce (nonceTag ++ s) = .ok (takeUntilSub nonceTag s) := by
  have hpre : nonceTag.isPrefixOf (nonceTag ++ s) = true :=
    List.isPrefixOf_iff_prefix.mpr (List.prefix_append nonceTag s)
  have h6 : nonceTag.length = 6 := rfl
  have hlen : (nonceTag ++ s).length + 1 = (s.length + 6) + 1 := by
    rw [List.length_append, h6]
    omega
  have hdrop : (nonceTag ++ s).drop nonceTag.length = s := List.drop_left nonceTag s
  rw [ExtractNonce, if_pos hpre, splitGo, hlen]
  rw [splitAux_succ, if_pos hpre, hdrop]
  have := splitAux_getD0 nonceTag nonceTag_ne_nil s (s.length + 6) [] (by omega)
  simpa using this

/-- C1: the fixture inputs produce exactly the expected signed response string. -/
theorem c1_fixture_signed_response :
    BuildSignedResponse (strBytes "us-west-2") (strBytes "91703fdc2ef562e19fbdab0f58e42fe5")
      (strBytes "UserID-1") (strBytes "UserSecretKey-1") [] fixtureTime =
    strBytes "signature=7f3691c18a81b8ce7457699effbfae5b09b4e0714ab38c1292dbdf082c9ddd87,access_key=UserID-1,amzdate=2020-06-09T22:41:51.000Z" := by
  decide

/-- C2 counterexample: on the payload nonce=anonce=b, whose suffix after the
first nonce= is anonce=b, ExtractNonce does not return that whole suffix; it
returns only a, the part before the second occurrence of nonce=. -/
theorem c2_counterexample :
    ExtractNonce (nonceTag ++ strBytes "anonce=b") ≠ .ok (strBytes "anonce=b") ∧
    ExtractNonce (nonceTag ++ strBytes "anonce=b") = .ok (strBytes "a") := by
  decide

/-- C2 amended: for every payload nonce= ++ s, ExtractNonce succeeds and returns
the part of s strictly before the next occurrence of nonce=; this is all of s
exactly when s contains no further occurrence of nonce=. -/
theorem c2_extract_nonce_amended (s : GoStr) :
    ExtractNonce (nonceTag ++ s) = .ok (takeUntilSub nonceTag s) ∧
      (containsSub nonceTag s = false → takeUntilSub nonceTag s = s) :=
  ⟨extractNonce_tag_append s, takeUntilSub_of_not_contains nonceTag s⟩

theorem c2_extract_nonce_amended_witness :
    ExtractNonce (nonceTag ++ strBytes "abc") = .ok (takeUntilSub nonceTag (strBytes "abc")) ∧
      takeUntilSub nonceTag (strBytes "abc") = strBytes "abc" :=
  ⟨(c2_extract_nonce_amended (strBytes "abc")).1,
   (c2_extract_nonce_amended (strBytes "abc")).2 (by decide)⟩

/-- C3 counterexample: with region, access key id and secret all empty, a step-2
Challenge on a well-formed payload still succeeds instead of returning an error. -/
theorem c3_counterexample :
    isOkResult (signingAuthenticator.Challenge
      ⟨[], [], [], [], none, some fixtureTime⟩ fixtureTime (strBytes "nonce=x")) = true := by
  decide

/-- C3 amended: no emptiness validation happens at signing time; for any
region, access key id and secret (empty ones included), a step-2 Challenge
whose payload parses returns the signed response built over those values. -/
theorem c3_challenge_no_validation (region akid secret tok : GoStr)
    (ct : Option GoTime) (now : GoTime) (req nonce : GoStr)
    (h : ExtractNonce req = .ok nonce) :
    signingAuthenticator.Challenge ⟨region, akid, secret, tok, none, ct⟩ now req =
      .ok (BuildSignedResponse region nonce akid secret tok (ct.getD now)) := by
  simp [signingAuthenticator.Challenge, h]

theorem c3_challenge_no_validation_witness :
    signingAuthenticator.Challenge ⟨[], [], [], [], none, some fixtureTime⟩ fixtureTime
        (strBytes "nonce=x") =
      .ok (BuildSignedResponse [] (strBytes "x") [] [] [] fixtureTime) :=
  c3_challenge_no_validation [] [] [] [] (some fixtureTime) fixtureTime (strBytes "nonce=x")
    (strBytes "x") (by decide)

/-- C4: a payload that does not begin with nonce= makes step-2 Challenge return
the malformed-challenge error, with no response bytes and no signing. -/
theorem c4_malformed_challenge (p : signingAuthenticator) (now : GoTime) (req : List Nat)
    (h : nonceTag.isPrefixOf req = false) :
    signingAuthenticator.Challenge p now req =
      .error (strBytes "request does not contain nonce property") := by
  simp [signingAuthenticator.Challenge, ExtractNonce, h]

theorem c4_malformed_challenge_witness :
    signingAuthenticator.Challenge ⟨[], [], [], [], none, none⟩ fixtureTime (strBytes "xnonce=y") =
      .error (strBytes "request does not contain nonce property") :=
  c4_malformed_challenge ⟨[], [], [], [], none, none⟩ fixtureTime (strBytes "xnonce=y") (by decide)

/-- C5: when a credentials callback is configured, its returned tuple is what
gets signed, whatever the static fields hold; a callback failure yields the
error wrapped with the exact prefix and no response, with no static fallback. -/
theorem c5_callback_precedence (region akid secret tok : GoStr)
    (cbres : Except GoStr SigV4Credentials) (ct : Option GoTime) (now : GoTime)
    (req nonce : GoStr) (h : ExtractNonce req = .ok nonce) :
    signingAuthenticator.Challenge ⟨region, akid, secret, tok, some cbres, ct⟩ now req =
      match cbres with
      | .ok c => .ok (BuildSignedResponse region nonce c.AccessKeyId c.SecretAccessKey
          c.SessionToken (ct.getD now))
      | .error e => .error (strBytes "failed to retrieve AWS credentials: " ++ e) := by
  cases cbres <;> simp [signingAuthenticator.Challenge, h]

theorem c5_callback_precedence_witness :
    signingAuthenticator.Challenge
        ⟨strBytes "us-west-2", strBytes "STATIC", strBytes "STATICSECRET", strBytes "STATICTOK",
          some (.ok ⟨strBytes "CB", strBytes "CBSECRET", []⟩), some fixtureTime⟩ fixtureTime
        (strBytes "nonce=x") =
      .ok (BuildSignedResponse (strBytes "us-west-2") (strBytes "x") (strBytes "CB")
        (strBytes "CBSECRET") [] fixtureTime) ∧
    signingAuthenticator.Challenge
        ⟨strBytes "us-west-2", strBytes "STATIC", strBytes "STATICSECRET", strBytes "STATICTOK",
          some (.error (strBytes "bad error")), some fixtureTime⟩ fixtureTime
        (strBytes "nonce=x") =
      .error (strBytes "failed to retrieve AWS credentials: " ++ strBytes "bad error") :=
  ⟨c5_callback_precedence (strBytes "us-west-2") (strBytes "STATIC") (strBytes "STATICSECRET")
      (strBytes "STATICTOK") (.ok ⟨strBytes "CB", strBytes "CBSECRET", []⟩) (some fixtureTime)
      fixtureTime (strBytes "nonce=x") (strBytes "x") (by decide),
   c5_callback_precedence (strBytes "us-west-2") (strBytes "STATIC") (strBytes "STATICSECRET")
      (strBytes "STATICTOK") (.error (strBytes "bad error")) (some fixtureTime)
      fixtureTime (strBytes "nonce=x") (strBytes "x") (by decide)⟩

/-- C6: the canonical request is PUT, /authenticate, the four query-parameter
strings sorted byte-lexicographically as whole key=value strings and joined
with an ampersand, the host header block, and the hex sha256 of the nonce. -/
theorem c6_canonical_request (accessKeyId scope : GoStr) (t : GoTime) (nonce : GoStr) :
    formCanonicalRequest accessKeyId scope t nonce =
      strBytes "PUT\n/authenticate\n"
        ++ joinSep [38] (sortStrings (canonHeaders accessKeyId scope t))
        ++ strBytes "\nhost:cassandra\n\nhost\n" ++ hexEncode (sha256 nonce) ∧
    (sortStrings (canonHeaders accessKeyId scope t)).Perm (canonHeaders accessKeyId scope t) ∧
    List.Sorted goLeP (sortStrings (canonHeaders accessKeyId scope t)) :=
  ⟨rfl, List.perm_insertionSort goLeP _, List.sorted_insertionSort goLeP _⟩

/-- C7: the signing key is the four-step chained hmac ladder, each step keyed
by the previous step's output, over dateStamp, region, cassandra, aws4_request. -/
theorem c7_signing_key_ladder (secret : GoStr) (t : GoTime) (region : GoStr) :
    deriveSigningKey secret t region =
      hmacSHA256
        (hmacSHA256
          (hmacSHA256 (hmacSHA256 (strBytes "AWS4" ++ secret) (toCredDateStamp t)) region)
          (strBytes "cassandra"))
        (strBytes "aws4_request") := rfl

/-- C8: step-1 Challenge always returns the 7 bytes SigV4 followed by two null
bytes together with a field-by-field snapshot, and never an error. -/
theorem c8_step1_token (p : AwsAuthenticator) (req : List Nat) :
    AwsAuthenticator.Challenge p req =
      .ok ([83, 105, 103, 86, 52, 0, 0],
        ⟨p.Region, p.AccessKeyId, p.SecretAccessKey, p.SessionToken, p.CredentialsCallback,
          p.currentTime⟩) ∧
    ([83, 105, 103, 86, 52, 0, 0] : List Nat) = strBytes "SigV4" ++ [0, 0] ∧
    ([83, 105, 103, 86, 52, 0, 0] : List Nat).length = 7 :=
  ⟨rfl, rfl, rfl⟩

/-- C9: an empty session token leaves the response as exactly the three
signature, access_key and amzdate fields with nothing appended; a non-empty
one appears verbatim as a final ,session_token= segment after them. -/
theorem c9_session_token (region nonce accessKeyId secret : GoStr) (t : GoTime) :
    BuildSignedResponse region nonce accessKeyId secret [] t =
      strBytes "signature="
        ++ hexEncode (createSignature (formCanonicalRequest accessKeyId (computeScope t region) t nonce)
            t (computeScope t region) (deriveSigningKey secret t region))
        ++ strBytes ",access_key=" ++ accessKeyId ++ strBytes ",amzdate=" ++ isoFormat t ∧
    ∀ tok : GoStr, tok ≠ [] →
      BuildSignedResponse region nonce accessKeyId secret tok t =
        BuildSignedResponse region nonce accessKeyId secret [] t
          ++ strBytes ",session_token=" ++ tok := by
  constructor
  · simp [BuildSignedResponse]
  · intro tok h
    simp [BuildSignedResponse, h]

theorem c9_session_token_witness :
    BuildSignedResponse (strBytes "r") (strBytes "n") (strBytes "a") (strBytes "s")
        (strBytes "tok") fixtureTime =
      BuildSignedResponse (strBytes "r") (strBytes "n") (strBytes "a") (strBytes "s") [] fixtureTime
        ++ strBytes ",session_token=" ++ strBytes "tok" :=
  (c9_session_token (strBytes "r") (strBytes "n") (strBytes "a") (strBytes "s") fixtureTime).2
    (strBytes "tok") (by decide)

/-- C10: a payload that is exactly nonce= is accepted: ExtractNonce returns the
empty nonce and step-2 Challenge returns the signed response over it. -/
theorem c10_empty_nonce (region akid secret tok : GoStr) (ct : Option GoTime) (now : GoTime) :
    ExtractNonce (strBytes "nonce=") = .ok ([] : GoStr) ∧
    signingAuthenticator.Challenge ⟨region, akid, secret, tok, none, ct⟩ now (strBytes "nonce=") =
      .ok (BuildSignedResponse region [] akid secret tok (ct.getD now)) := by
  refine ⟨by decide, ?_⟩
  have h : ExtractNonce (strBytes "nonce=") = .ok ([] : GoStr) := by decide
  simp [signingAuthenticator.Challenge, h]
